import Mathlib

/-!
Shallow embedding of the execution tracer of the yap code-visualizer
repository and proofs about it. The embedded code is the Python tracer
script injected into Pyodide (TRACER_SCRIPT in tracerScript.ts) together
with the hooks usePyodide.runCode and the C engine hook useCpp.ts.
Definitions follow the source; the theorems at the end of the file settle
the specification claims.
-/

/-- Prefix test on strings, used to embed both the Python str.startswith
method and the JavaScript String.prototype.startsWith method. It is
defined over the character lists of the strings so that it evaluates by
kernel reduction. -/
def startswith (s pre : String) : Bool := pre.data.isPrefixOf s.data

namespace PyTracer

/-- Model of a raw Python runtime value as seen by the tracer. Every
constructor carries the object id that the CPython builtin id() reports
for the value. Dict keys are carried already stringified, matching the
str(k) conversion done by the source; set elements are carried in the
iteration order that list(value) produces. The obj constructor covers
every remaining Python object: it carries the type name
(type(value).__name__), the result of str(value) (none when str raises),
and whether the value is callable. -/
inductive PyValue : Type where
  | none (obj_id : Nat)
  | bool (obj_id : Nat) (b : Bool)
  | int (obj_id : Nat) (n : Int)
  | float (obj_id : Nat) (repr : String)
  | str (obj_id : Nat) (s : String)
  | list (obj_id : Nat) (items : List PyValue)
  | tuple (obj_id : Nat) (items : List PyValue)
  | dict (obj_id : Nat) (entries : List (String × PyValue))
  | set (obj_id : Nat) (items : List PyValue)
  | obj (obj_id : Nat) (type_name : String) (str_repr : Option String) (is_callable : Bool)

/-- Object id of a value, the result of the Python builtin id(value). -/
def PyValue.obj_id : PyValue → Nat
  | .none i => i
  | .bool i _ => i
  | .int i _ => i
  | .float i _ => i
  | .str i _ => i
  | .list i _ => i
  | .tuple i _ => i
  | .dict i _ => i
  | .set i _ => i
  | .obj i _ _ _ => i

mutual
/-- JSON value stored in the value field of a serialized snapshot. -/
inductive SnapVal : Type where
  | null
  | bool (b : Bool)
  | int (n : Int)
  | str (s : String)
  | arr (xs : List Snapshot)
  | map (xs : List (String × Snapshot))

/-- Wire-format snapshot of one runtime value: the dictionaries built by
CodeTracer.serialize_value, with the optional length and truncated keys
(none models an absent key). -/
inductive Snapshot : Type where
  | mk (value : SnapVal) (type : String) (id : Nat)
       (length : Option Nat) (truncated : Option Bool)
end

/-- Value field of a snapshot. -/
def Snapshot.value : Snapshot → SnapVal
  | .mk v _ _ _ _ => v

/-- Type field of a snapshot. -/
def Snapshot.type : Snapshot → String
  | .mk _ t _ _ _ => t

/-- Id field of a snapshot. -/
def Snapshot.id : Snapshot → Nat
  | .mk _ _ i _ _ => i

/-- Length field of a snapshot (none when the key is absent). -/
def Snapshot.length : Snapshot → Option Nat
  | .mk _ _ _ l _ => l

/-- Truncated field of a snapshot (none when the key is absent). -/
def Snapshot.truncated : Snapshot → Option Bool
  | .mk _ _ _ _ t => t

/-- Step ceiling of the tracer, CodeTracer.MAX_STEPS. -/
def MAX_STEPS : Nat := 1000

/-- Text length cap of the tracer, CodeTracer.MAX_STRING_LENGTH. -/
def MAX_STRING_LENGTH : Nat := 100

/-- Sequence element cap of the tracer, CodeTracer.MAX_LIST_LENGTH. -/
def MAX_LIST_LENGTH : Nat := 50

/-- Embedding of CodeTracer.serialize_value. Each match arm corresponds to
one isinstance branch of the source, in source order; the final obj arm is
the fallback branch whose try/except around str(value) is modelled by the
option in the str_repr field. -/
def serialize_value (value : PyValue) (depth : Nat) : Snapshot :=
  if _h : depth > 3 then
    ⟨.str "...", "truncated", value.obj_id, none, none⟩
  else
    match value with
    | .none obj_id => ⟨.null, "NoneType", obj_id, none, none⟩
    | .bool obj_id b => ⟨.bool b, "bool", obj_id, none, none⟩
    | .int obj_id n => ⟨.int n, "int", obj_id, none, none⟩
    | .float obj_id r => ⟨.str r, "float", obj_id, none, none⟩
    | .str obj_id s =>
        let truncated := s.take MAX_STRING_LENGTH
        let truncated := if s.length > MAX_STRING_LENGTH then truncated ++ "..." else truncated
        ⟨.str truncated, "str", obj_id, none, none⟩
    | .list obj_id items =>
        let items_to_show := items.take MAX_LIST_LENGTH
        let serialized_items := items_to_show.map (fun item => serialize_value item (depth + 1))
        ⟨.arr serialized_items, "list", obj_id, some items.length,
          if items.length > MAX_LIST_LENGTH then some true else none⟩
    | .tuple obj_id items =>
        let items_to_show := items.take MAX_LIST_LENGTH
        let serialized_items := items_to_show.map (fun item => serialize_value item (depth + 1))
        ⟨.arr serialized_items, "tuple", obj_id, some items.length, none⟩
    | .dict obj_id entries =>
        let shown := entries.take 20
        let serialized_dict := shown.map (fun kv => (kv.1, serialize_value kv.2 (depth + 1)))
        ⟨.map serialized_dict, "dict", obj_id, some entries.length, none⟩
    | .set obj_id items =>
        let items_list := items.take MAX_LIST_LENGTH
        let serialized_items := items_list.map (fun item => serialize_value item (depth + 1))
        ⟨.arr serialized_items, "set", obj_id, some items.length, none⟩
    | .obj obj_id type_name str_repr _ =>
        match str_repr with
        | some s => ⟨.str (s.take MAX_STRING_LENGTH), type_name, obj_id, none, none⟩
        | none => ⟨.str "<unserializable>", type_name, obj_id, none, none⟩
termination_by 4 - depth
decreasing_by all_goals omega

/-- Fixed denylist of binding names, CodeTracer.IGNORED_VARS. -/
def IGNORED_VARS : List String :=
  ["__builtins__", "__name__", "__doc__", "__package__",
   "__loader__", "__spec__", "__annotations__", "__cached__",
   "__file__", "__tracer__", "CodeTracer", "tracer", "trace_code"]

/-- Result of the Python builtin callable(value) on a modelled value. -/
def isCallable : PyValue → Bool
  | .obj _ _ _ c => c
  | _ => false

/-- Result of isinstance(value, (list, dict, set)) on a modelled value. -/
def isListDictSet : PyValue → Bool
  | .list _ _ => true
  | .dict _ _ => true
  | .set _ _ => true
  | _ => false

/-- Embedding of CodeTracer.capture_locals. The first condition embeds the
source verbatim: the source guards "continue" for double-underscore names
inside an outer condition that already excludes double-underscore names,
so that inner skip can never fire. -/
def capture_locals (local_vars : List (String × PyValue)) : List (String × Snapshot) :=
  local_vars.filterMap (fun nv =>
    let name := nv.1
    let value := nv.2
    if (startswith name "_" && !(startswith name "__")) && startswith name "__" then none
    else if IGNORED_VARS.contains name then none
    else if isCallable value && !(isListDictSet value) then none
    else some (name, serialize_value value 0))

/-- Exception info recorded in an exception frame. -/
structure ExcInfo where
  type : String
  message : String

/-- One recorded execution frame, the dictionaries appended to
CodeTracer.frames. The vars field carries the wire key named "variables"
(that word is reserved in Lean). The return_value field is doubly
optional: the outer option models presence of the key, the inner one
models a JSON null return value. -/
structure Frame where
  step : Nat
  line : Nat
  event : String
  function : String
  depth : Nat
  vars : List (String × Snapshot)
  return_value : Option (Option Snapshot)
  exception : Option ExcInfo

/-- Raw event delivered to CodeTracer.trace_function by sys.settrace. The
foreign constructor stands for an event whose frame filename differs from
the target filename; the source ignores it apart from returning the
tracer for nested calls. -/
inductive PyEvent : Type where
  | call (line_no : Nat) (func_name : String) (locals : List (String × PyValue))
  | line (line_no : Nat) (func_name : String) (locals : List (String × PyValue))
  | ret (line_no : Nat) (func_name : String) (locals : List (String × PyValue)) (arg : PyValue)
  | exc (line_no : Nat) (func_name : String) (locals : List (String × PyValue))
        (exc_type : Option String) (exc_message : Option String)
  | foreign

/-- Mutable state of a CodeTracer instance. -/
structure TracerState where
  frames : List Frame
  step_count : Nat
  call_depth : Nat

/-- State of a freshly constructed CodeTracer. -/
def initState : TracerState := ⟨[], 0, 0⟩

/-- Return value recorded on a return event: serialize_value(arg) when arg
is not None, otherwise the JSON null. -/
def serializeReturn (arg : PyValue) : Option Snapshot :=
  match arg with
  | .none _ => none
  | _ => some (serialize_value arg 0)

/-- Embedding of one invocation of CodeTracer.trace_function: the state
transition performed for a single raw event. -/
def trace_function (s : TracerState) (e : PyEvent) : TracerState :=
  if s.step_count ≥ MAX_STEPS then s
  else
    match e with
    | .foreign => s
    | .call line_no func_name locals =>
        let call_depth := s.call_depth + 1
        let step_count := s.step_count + 1
        ⟨s.frames ++ [⟨step_count, line_no, "call", func_name, call_depth,
          capture_locals locals, none, none⟩], step_count, call_depth⟩
    | .line line_no func_name locals =>
        let step_count := s.step_count + 1
        ⟨s.frames ++ [⟨step_count, line_no, "line", func_name, s.call_depth,
          capture_locals locals, none, none⟩], step_count, s.call_depth⟩
    | .ret line_no func_name locals arg =>
        let step_count := s.step_count + 1
        ⟨s.frames ++ [⟨step_count, line_no, "return", func_name, s.call_depth,
          capture_locals locals, some (serializeReturn arg), none⟩], step_count,
          max 0 (s.call_depth - 1)⟩
    | .exc line_no func_name locals exc_type exc_message =>
        let step_count := s.step_count + 1
        ⟨s.frames ++ [⟨step_count, line_no, "exception", func_name, s.call_depth,
          capture_locals locals, none,
          some ⟨exc_type.getD "Unknown", exc_message.getD ""⟩⟩], step_count, s.call_depth⟩

/-- Run of the tracer over a whole raw event stream. -/
def runTrace (events : List PyEvent) (s : TracerState) : TracerState :=
  events.foldl trace_function s

/-- Wire-format result of one tracer run, the TraceResult JSON object. -/
structure TraceResult where
  success : Bool
  error : Option String
  frames : List Frame

/-- Data of a Python SyntaxError raised by compile. -/
structure SyntaxErr where
  msg : String
  lineno : Nat

/-- Data of an exception escaping exec of the user code. -/
structure RuntimeErr where
  type_name : String
  message : String

/-- Embedding of the trace_code entry point. The outcome of the external
compile builtin and of executing the user program (the raw event stream it
generates and the exception, if any, escaping exec) are inputs. -/
def trace_code (compile_result : Except SyntaxErr Unit) (events : List PyEvent)
    (exec_error : Option RuntimeErr) : TraceResult :=
  match compile_result with
  | .error e => ⟨false, some ("SyntaxError: " ++ e.msg ++ " at line " ++ toString e.lineno), []⟩
  | .ok _ =>
      let tracer := runTrace events initState
      match exec_error with
      | none => ⟨true, none, tracer.frames⟩
      | some e => ⟨false, some (e.type_name ++ ": " ++ e.message), tracer.frames⟩

/-- Embedding of usePyodide.runCode: the pyodide argument is the engine
handle held in pyodideRef.current (none before initialization finishes),
modelled as the outcome of runPython on the wrapped user code — an
exception (left) or a parsed TraceResult (right). -/
def usePyodide_runCode (pyodide : Option (String → Except String TraceResult))
    (code : String) : TraceResult :=
  match pyodide with
  | none => ⟨false, some "Pyodide is not initialized", []⟩
  | some runPython =>
      match runPython code with
      | .ok result => result
      | .error errorMessage => ⟨false, some errorMessage, []⟩

end PyTracer

namespace CppEngine

/-- Type info object attached to a JSCPP runtime value wrapper, the t
property with its type and name fields (none models an absent field). -/
structure TypeInfo where
  ty : Option String
  name : Option String

/-- Model of a JavaScript value reaching serializeValue in useCpp.ts.
null covers both null and undefined; wrapped is an object with a v
property (a JSCPP runtime value) and optional t type info; targetArr is
an object whose target property is an array; fnObj is an object with a
string name property (a JSCPP stdlib function stub); obj is any other
object, carrying its JSON.stringify text (none when stringify throws);
exotic is a value whose handling throws, exercising the outer catch. -/
inductive CppValue : Type where
  | null
  | fn
  | intNum (n : Int)
  | floatNum (repr : String)
  | str (s : String)
  | boolVal (b : Bool)
  | wrapped (v : CppValue) (t : Option TypeInfo)
  | arr (items : List CppValue)
  | targetArr (items : List CppValue)
  | fnObj (name : String)
  | obj (json : Option String)
  | exotic

mutual
/-- JSON value stored in the value field of a serialized C value. The raw
constructor holds a JavaScript value placed in the value slot without
further conversion, as the array-item mapping of the source does for
non-primitive items. -/
inductive CSnapVal : Type where
  | null
  | int (n : Int)
  | float (repr : String)
  | str (s : String)
  | bool (b : Bool)
  | raw (v : CppValue)
  | items (xs : List CSnapshot)

/-- SerializedValue objects built by serializeValue in useCpp.ts. -/
inductive CSnapshot : Type where
  | mk (value : CSnapVal) (type : String) (id : Nat)
       (length : Option Nat) (truncated : Option Bool)
end

/-- Value field of a serialized C value. -/
def CSnapshot.value : CSnapshot → CSnapVal
  | .mk v _ _ _ _ => v

/-- Type field of a serialized C value. -/
def CSnapshot.type : CSnapshot → String
  | .mk _ t _ _ _ => t

/-- Id field of a serialized C value. -/
def CSnapshot.id : CSnapshot → Nat
  | .mk _ _ i _ _ => i

/-- Length field of a serialized C value (none when the key is absent). -/
def CSnapshot.length : CSnapshot → Option Nat
  | .mk _ _ _ l _ => l

/-- Truncated field of a serialized C value (none when absent). -/
def CSnapshot.truncated : CSnapshot → Option Bool
  | .mk _ _ _ _ t => t

/-- Result of the JavaScript typeof operator on a modelled value (typeof
null is the string "object"). -/
def cppTypeof : CppValue → String
  | .fn => "function"
  | .intNum _ => "number"
  | .floatNum _ => "number"
  | .str _ => "string"
  | .boolVal _ => "boolean"
  | _ => "object"

/-- Substring test, the JavaScript String.prototype.includes. -/
def containsStr (s pat : String) : Bool :=
  (List.range (s.length + 1)).any (fun i => pat.data.isPrefixOf (s.data.drop i))

/-- Per-item mapping of the array branch of serializeValue: one level of
v-unwrapping, then a primitive tag or the raw value. -/
def serializeItem (id : Nat) (item : CppValue) : CSnapshot :=
  let itemValue := match item with
    | .wrapped v _ => v
    | _ => item
  match itemValue with
  | .intNum n => ⟨.int n, "int", id, none, none⟩
  | .floatNum r => ⟨.float r, "float", id, none, none⟩
  | .str s => ⟨.str s, "string", id, none, none⟩
  | .boolVal b => ⟨.bool b, "boolean", id, none, none⟩
  | v => ⟨.raw v, cppTypeof v, id, none, none⟩

/-- Array branch of serializeValue, shared with the target-array branch
(which reaches the same code through a recursive call). Item ids are
id + idx + 1; length is the true array length; no truncated key. -/
def serializeArr (id : Nat) (items : List CppValue) : CSnapshot :=
  ⟨.items (items.enum.map (fun p => serializeItem (id + p.1 + 1) p.2)), "array",
    id, some items.length, none⟩

/-- Embedding of serializeValue from useCpp.ts. The ids list supplies the
ids minted by Math.random at each (re-)entry of the function: the head is
the id of this call, the tail feeds the recursive calls of the wrapped and
target-array branches. The exotic arm is the outer catch. -/
def serializeValue (ids : List Nat) (value : CppValue) (type : String) : CSnapshot :=
  let id := ids.headD 0
  match value with
  | .exotic => ⟨.str "[error]", "error", id, none, none⟩
  | .null => ⟨.null, "null", id, none, none⟩
  | .fn => ⟨.str "[function]", "function", id, none, none⟩
  | .wrapped v t =>
      match v with
      | .fn => ⟨.str "[function]", "function", id, none, none⟩
      | _ =>
          let actualType := match t with
            | some ti => match ti.name with
              | some n => if n == "" then type else n
              | none => type
            | none => type
          serializeValue ids.tail v actualType
  | .arr items => serializeArr id items
  | .intNum n => ⟨.int n, "int", id, none, none⟩
  | .floatNum r => ⟨.float r, "float", id, none, none⟩
  | .str s => ⟨.str s, "char*", id, none, none⟩
  | .boolVal b => ⟨.int (if b then 1 else 0), "bool", id, none, none⟩
  | .targetArr items => serializeArr (ids.tail.headD 0) items
  | .fnObj name => ⟨.str ("\x7b\"name\":\"" ++ name ++ "\"\x7d"), "struct", id, none, none⟩
  | .obj json => ⟨.str (json.getD "[object]"), "struct", id, none, none⟩

/-- C standard library names excluded from variable capture. -/
def STDLIB_FUNCTIONS : List String :=
  ["printf", "sprintf", "fprintf", "snprintf",
   "scanf", "sscanf", "fscanf",
   "getchar", "putchar", "gets", "puts",
   "malloc", "calloc", "realloc", "free",
   "strlen", "strcpy", "strcat", "strcmp", "strncpy",
   "memset", "memcpy", "memmove",
   "abs", "sqrt", "pow", "floor", "ceil",
   "rand", "srand", "exit", "atoi", "atof",
   "cout", "cin", "endl", "cerr", "clog",
   "std", "using", "namespace"]

/-- Embedding of the isFunction helper inside runCode: detects JSCPP
variable entries that are functions rather than user variables. -/
def isFunction (varData : CppValue) : Bool :=
  match varData with
  | .wrapped v t =>
      (match v with | .fn => true | _ => false) ||
      (match t with
       | some ti =>
           (match ti.ty with | some k => k == "function" | none => false) ||
           (match ti.name with | some n => containsStr n "function" | none => false)
       | none => false)
  | .fnObj _ => true
  | _ => false

/-- Variable-capture loop body of runCode: filters the entries returned by
debuggerInstance.variable() (none when that call throws) and serializes
the survivors; ids supplies the per-variable random id streams. -/
def captureVariables (allVars : Option (List (String × CppValue)))
    (ids : String → List Nat) : List (String × CSnapshot) :=
  match allVars with
  | none => []
  | some vars => vars.filterMap (fun nv =>
      let name := nv.1
      let varData := nv.2
      if startswith name "_" || name == "this" then none
      else if STDLIB_FUNCTIONS.contains name then none
      else if isFunction varData then none
      else
        let serialized := serializeValue (ids name) varData "unknown"
        if serialized.type == "struct" &&
           (match serialized.value with
            | .str strValue =>
                containsStr strValue "function" || strValue == "\x7b\x7d" ||
                containsStr strValue "\"name\""
            | _ => false) then none
        else if serialized.type == "null" then none
        else some (name, serialized))

/-- One frame captured by the C engine (the shared ExecutionFrame wire
type; the C engine never emits an exception field, so it is omitted). -/
structure CFrame where
  step : Nat
  line : Nat
  event : String
  function : String
  depth : Nat
  vars : List (String × CSnapshot)
  return_value : Option CSnapshot

/-- Observation delivered by one debuggerInstance.next() iteration: the
next node (its sLine; none when nextNode() returns null), the variable
table (none when variable() throws), and the random id streams used while
serializing each variable. -/
structure StepObs where
  node : Option Nat
  allVars : Option (List (String × CppValue))
  ids : String → List Nat

/-- Loop-local state of runCode: the frames captured so far, the step
counter, and the last seen line. -/
structure LoopState where
  capturedFrames : List CFrame
  stepCount : Nat
  lastLine : Nat

/-- Step ceiling of the C engine, MAX_STEPS in runCode. -/
def MAX_STEPS : Nat := 1000

/-- Embedding of the do-while stepping loop of runCode. The observation
list ends where the loop condition (stepResult === false && !done) ends
the loop; the ceiling break abandons the remaining observations after
incrementing the counter, without recording a frame. -/
def runLoop (obs : List StepObs) (s : LoopState) : LoopState :=
  match obs with
  | [] => s
  | o :: rest =>
      let stepCount := s.stepCount + 1
      if stepCount > MAX_STEPS then ⟨s.capturedFrames, stepCount, s.lastLine⟩
      else
        let currentLine := match o.node with | some l => l | none => s.lastLine
        let lastLine := match o.node with | some l => l | none => s.lastLine
        let vars := captureVariables o.allVars o.ids
        let capturedFrames :=
          if currentLine > 0 || vars.length > 0 then
            s.capturedFrames ++ [⟨stepCount, currentLine, "line", "main", 1, vars, none⟩]
          else s.capturedFrames
        runLoop rest ⟨capturedFrames, stepCount, lastLine⟩

/-- Wire-format result of one C engine run. -/
structure CTraceResult where
  success : Bool
  error : Option String
  frames : List CFrame

/-- Embedding of the successful debugger path of runCode in useCpp.ts:
step through the program, then append the synthetic stdout frame when the
accumulated output is non-empty (JavaScript truthiness of a string). -/
def runCode (steps : List StepObs) (output : String) : CTraceResult :=
  let final := runLoop steps ⟨[], 0, 0⟩
  let capturedFrames :=
    if output = "" then final.capturedFrames
    else final.capturedFrames ++
      [⟨final.stepCount + 1, 0, "return", "main", 0, [],
        some ⟨.str output.trim, "stdout", 0, none, none⟩⟩]
  ⟨true, none, capturedFrames⟩

end CppEngine

namespace PyTracer

/-- Raw events that the tracer records as frames: every event except one
coming from a foreign file. -/
def recordable : PyEvent → Bool
  | .foreign => false
  | _ => true

/-- Combined skip condition of capture_locals: a binding is dropped when
any of the three guards of the source fires. -/
def skippedBinding (name : String) (value : PyValue) : Bool :=
  ((startswith name "_" && !(startswith name "__")) && startswith name "__") ||
  IGNORED_VARS.contains name ||
  (isCallable value && !(isListDictSet value))

end PyTracer

namespace PyTracer

/-- Unfolding of the string branch of serialize_value below the recursion
cap. -/
lemma serialize_value_str_eq (obj_id : Nat) (s : String) (depth : Nat) (h : depth ≤ 3) :
    serialize_value (.str obj_id s) depth =
      ⟨.str (if s.length > MAX_STRING_LENGTH then s.take MAX_STRING_LENGTH ++ "..."
             else s.take MAX_STRING_LENGTH), "str", obj_id, none, none⟩ := by
  rw [serialize_value]
  rw [dif_neg (by omega)]

/-- Unfolding of the list branch of serialize_value below the recursion
cap. -/
lemma serialize_value_list_eq (obj_id : Nat) (items : List PyValue) (depth : Nat) (h : depth ≤ 3) :
    serialize_value (.list obj_id items) depth =
      ⟨.arr ((items.take MAX_LIST_LENGTH).map (fun item => serialize_value item (depth + 1))),
        "list", obj_id, some items.length,
        if items.length > MAX_LIST_LENGTH then some true else none⟩ := by
  rw [serialize_value]
  rw [dif_neg (by omega)]

/-- Unfolding of the tuple branch of serialize_value below the recursion
cap: no truncated key is ever emitted. -/
lemma serialize_value_tuple_eq (obj_id : Nat) (items : List PyValue) (depth : Nat) (h : depth ≤ 3) :
    serialize_value (.tuple obj_id items) depth =
      ⟨.arr ((items.take MAX_LIST_LENGTH).map (fun item => serialize_value item (depth + 1))),
        "tuple", obj_id, some items.length, none⟩ := by
  rw [serialize_value]
  rw [dif_neg (by omega)]

/-- Unfolding of the fallback branch of serialize_value when str(value)
raises, below the recursion cap. -/
lemma serialize_value_unserializable_eq (obj_id : Nat) (type_name : String) (c : Bool)
    (depth : Nat) (h : depth ≤ 3) :
    serialize_value (.obj obj_id type_name none c) depth =
      ⟨.str "<unserializable>", type_name, obj_id, none, none⟩ := by
  rw [serialize_value]
  rw [dif_neg (by omega)]

end PyTracer

namespace PyTracer

/-- At or past the ceiling the tracer leaves its state untouched. -/
lemma trace_function_stop (s : TracerState) (e : PyEvent) (h : MAX_STEPS ≤ s.step_count) :
    trace_function s e = s := by
  unfold trace_function
  rw [if_pos h]

/-- Foreign-file events never change the tracer state. -/
lemma trace_function_foreign (s : TracerState) : trace_function s .foreign = s := by
  unfold trace_function
  split <;> rfl

/-- Unfolding of the call branch of trace_function below the ceiling. -/
lemma trace_function_call_eq (s : TracerState) (line_no : Nat) (func_name : String)
    (locals : List (String × PyValue)) (h : s.step_count < MAX_STEPS) :
    trace_function s (.call line_no func_name locals) =
      ⟨s.frames ++ [⟨s.step_count + 1, line_no, "call", func_name, s.call_depth + 1,
        capture_locals locals, none, none⟩], s.step_count + 1, s.call_depth + 1⟩ := by
  unfold trace_function
  rw [if_neg (by omega)]

/-- Unfolding of the line branch of trace_function below the ceiling. -/
lemma trace_function_line_eq (s : TracerState) (line_no : Nat) (func_name : String)
    (locals : List (String × PyValue)) (h : s.step_count < MAX_STEPS) :
    trace_function s (.line line_no func_name locals) =
      ⟨s.frames ++ [⟨s.step_count + 1, line_no, "line", func_name, s.call_depth,
        capture_locals locals, none, none⟩], s.step_count + 1, s.call_depth⟩ := by
  unfold trace_function
  rw [if_neg (by omega)]

/-- Unfolding of the return branch of trace_function below the ceiling:
the frame carrying the serialized return value is appended first, then the
depth becomes max 0 (depth - 1). -/
lemma trace_function_ret_eq (s : TracerState) (line_no : Nat) (func_name : String)
    (locals : List (String × PyValue)) (arg : PyValue) (h : s.step_count < MAX_STEPS) :
    trace_function s (.ret line_no func_name locals arg) =
      ⟨s.frames ++ [⟨s.step_count + 1, line_no, "return", func_name, s.call_depth,
        capture_locals locals, some (serializeReturn arg), none⟩], s.step_count + 1,
        max 0 (s.call_depth - 1)⟩ := by
  unfold trace_function
  rw [if_neg (by omega)]

/-- Unfolding of the exception branch of trace_function below the
ceiling. -/
lemma trace_function_exc_eq (s : TracerState) (line_no : Nat) (func_name : String)
    (locals : List (String × PyValue)) (exc_type exc_message : Option String)
    (h : s.step_count < MAX_STEPS) :
    trace_function s (.exc line_no func_name locals exc_type exc_message) =
      ⟨s.frames ++ [⟨s.step_count + 1, line_no, "exception", func_name, s.call_depth,
        capture_locals locals, none, some ⟨exc_type.getD "Unknown", exc_message.getD ""⟩⟩],
        s.step_count + 1, s.call_depth⟩ := by
  unfold trace_function
  rw [if_neg (by omega)]

/-- Appending a frame whose step is length + 1 preserves the index
correspondence frames(i).step = i + 1. -/
lemma indexed_append (l : List Frame) (f : Frame)
    (h2 : ∀ i g, l[i]? = some g → g.step = i + 1) (hf : f.step = l.length + 1) :
    ∀ i g, (l ++ [f])[i]? = some g → g.step = i + 1 := by
  intro i g hg
  rw [List.getElem?_append] at hg
  by_cases hi : i < l.length
  · rw [if_pos hi] at hg
    exact h2 i g hg
  · rw [if_neg hi] at hg
    have hlen : i - l.length < 1 := by
      have := (List.getElem?_eq_some.mp hg).1
      simpa using this
    have hi0 : i = l.length := by omega
    subst hi0
    simp at hg
    subst hg
    omega

/-- The tracer invariant: the step counter tracks the number of recorded
frames, and every frame carries step = index + 1. -/
def StateInv (s : TracerState) : Prop :=
  s.step_count = s.frames.length ∧ ∀ i g, s.frames[i]? = some g → g.step = i + 1

/-- One trace_function step preserves the tracer invariant. -/
lemma trace_function_inv (s : TracerState) (e : PyEvent) (h : StateInv s) :
    StateInv (trace_function s e) := by
  obtain ⟨h1, h2⟩ := h
  by_cases hc : MAX_STEPS ≤ s.step_count
  · rw [trace_function_stop s e hc]
    exact ⟨h1, h2⟩
  · have hc' : s.step_count < MAX_STEPS := by omega
    cases e with
    | foreign =>
        rw [trace_function_foreign]
        exact ⟨h1, h2⟩
    | call line_no func_name locals =>
        rw [trace_function_call_eq s line_no func_name locals hc']
        refine ⟨by simp [h1], indexed_append _ _ h2 (by simp [h1])⟩
    | line line_no func_name locals =>
        rw [trace_function_line_eq s line_no func_name locals hc']
        refine ⟨by simp [h1], indexed_append _ _ h2 (by simp [h1])⟩
    | ret line_no func_name locals arg =>
        rw [trace_function_ret_eq s line_no func_name locals arg hc']
        refine ⟨by simp [h1], indexed_append _ _ h2 (by simp [h1])⟩
    | exc line_no func_name locals exc_type exc_message =>
        rw [trace_function_exc_eq s line_no func_name locals exc_type exc_message hc']
        refine ⟨by simp [h1], indexed_append _ _ h2 (by simp [h1])⟩

/-- The tracer invariant holds after any run started in an invariant
state. -/
lemma runTrace_inv (events : List PyEvent) (s : TracerState) (h : StateInv s) :
    StateInv (runTrace events s) := by
  induction events generalizing s with
  | nil => exact h
  | cons e rest ih =>
      have step := trace_function_inv s e h
      simpa [runTrace, List.foldl_cons] using ih (trace_function s e) step

end PyTracer

namespace PyTracer

/-- Frame count of a run: recordable events append one frame each until
the ceiling is reached, after which nothing is appended. -/
lemma runTrace_length (events : List PyEvent) (s : TracerState)
    (h1 : s.step_count = s.frames.length) (hle : s.frames.length ≤ MAX_STEPS) :
    (runTrace events s).frames.length =
      min MAX_STEPS (s.frames.length + events.countP recordable) := by
  induction events generalizing s with
  | nil =>
      simp only [runTrace, List.foldl_nil, List.countP_nil]
      omega
  | cons e rest ih =>
      have hstep : runTrace (e :: rest) s = runTrace rest (trace_function s e) := by
        simp [runTrace, List.foldl_cons]
      rw [hstep, List.countP_cons]
      by_cases hc : MAX_STEPS ≤ s.step_count
      · rw [trace_function_stop s e hc]
        rw [ih s h1 hle]
        have hfull : s.frames.length = MAX_STEPS := by omega
        rw [hfull]
        cases e <;> simp [recordable]
      · have hc' : s.step_count < MAX_STEPS := by omega
        cases e with
        | foreign =>
            rw [trace_function_foreign]
            rw [ih s h1 hle]
            simp [recordable]
        | call line_no func_name locals =>
            rw [trace_function_call_eq s line_no func_name locals hc']
            rw [ih _ (by simp [h1]) (by simp; omega)]
            simp [recordable]
            omega
        | line line_no func_name locals =>
            rw [trace_function_line_eq s line_no func_name locals hc']
            rw [ih _ (by simp [h1]) (by simp; omega)]
            simp [recordable]
            omega
        | ret line_no func_name locals arg =>
            rw [trace_function_ret_eq s line_no func_name locals arg hc']
            rw [ih _ (by simp [h1]) (by simp; omega)]
            simp [recordable]
            omega
        | exc line_no func_name locals exc_type exc_message =>
            rw [trace_function_exc_eq s line_no func_name locals exc_type exc_message hc']
            rw [ih _ (by simp [h1]) (by simp; omega)]
            simp [recordable]
            omega

/-- Per-binding independence of capture_locals: the filter treats each
binding on its own, so a list of locals splits. -/
lemma capture_locals_append (pre post : List (String × PyValue)) :
    capture_locals (pre ++ post) = capture_locals pre ++ capture_locals post := by
  unfold capture_locals
  exact List.filterMap_append pre post _

/-- Every binding that none of the three skip guards drops appears,
serialized, in the captured frame variables. -/
lemma mem_capture_locals (locs : List (String × PyValue)) (name : String) (value : PyValue)
    (hmem : (name, value) ∈ locs) (hkeep : skippedBinding name value = false) :
    (name, serialize_value value 0) ∈ capture_locals locs := by
  apply List.mem_filterMap.mpr
  refine ⟨(name, value), hmem, ?_⟩
  simp only [skippedBinding, Bool.or_eq_false_iff] at hkeep
  obtain ⟨⟨hk1, hk2⟩, hk3⟩ := hkeep
  simp only []
  rw [if_neg (by simp [hk1]), if_neg (by rw [hk2]; simp), if_neg (by simp [hk3])]

end PyTracer

namespace CppEngine

/-- Once the counter is at the ceiling, the loop breaks without recording
any further frame. -/
lemma runLoop_stop (obs : List StepObs) (s : LoopState) (h : MAX_STEPS ≤ s.stepCount) :
    (runLoop obs s).capturedFrames = s.capturedFrames := by
  cases obs with
  | nil => rfl
  | cons o rest =>
      simp only [runLoop]
      rw [if_pos (by omega)]

/-- While no break can occur, the loop processes an appended observation
list sequentially. -/
lemma runLoop_append (a b : List StepObs) (s : LoopState)
    (h : s.stepCount + a.length ≤ MAX_STEPS) :
    runLoop (a ++ b) s = runLoop b (runLoop a s) := by
  induction a generalizing s with
  | nil => rfl
  | cons o rest ih =>
      have hcond : ¬ (s.stepCount + 1 > MAX_STEPS) := by simp at h; omega
      simp only [List.cons_append, runLoop]
      rw [if_neg hcond, if_neg hcond]
      apply ih
      simp at h ⊢
      omega

/-- Every observation that carries a positive source line records exactly
one frame, as long as the ceiling is not hit. -/
lemma runLoop_allPush (obs : List StepObs) (s : LoopState)
    (hpush : ∀ o ∈ obs, ∃ l, o.node = some l ∧ 0 < l)
    (hle : s.stepCount + obs.length ≤ MAX_STEPS) :
    (runLoop obs s).capturedFrames.length = s.capturedFrames.length + obs.length ∧
    (runLoop obs s).stepCount = s.stepCount + obs.length := by
  induction obs generalizing s with
  | nil => simp [runLoop]
  | cons o rest ih =>
      obtain ⟨l, hnode, hl⟩ := hpush o (List.mem_cons_self o rest)
      simp only [runLoop]
      rw [if_neg (by simp at hle; omega)]
      rw [hnode]
      rw [if_pos (by simp [hl])]
      have hrest : ∀ o ∈ rest, ∃ l, o.node = some l ∧ 0 < l :=
        fun o ho => hpush o (List.mem_cons_of_mem _ ho)
      have := ih ⟨s.capturedFrames ++ [⟨s.stepCount + 1, l, "line", "main", 1,
        captureVariables o.allVars o.ids, none⟩], s.stepCount + 1, l⟩ hrest
        (by simp at hle ⊢; omega)
      simp at this ⊢
      omega

/-- Frames already recorded keep their property, and every frame the loop
pushes is a line frame of function main at depth 1 with no return value
and a step bounded by the final counter. -/
lemma runLoop_shape (obs : List StepObs) (s : LoopState)
    (hs : ∀ f ∈ s.capturedFrames,
      f.event = "line" ∧ f.function = "main" ∧ f.depth = 1 ∧ f.return_value = none) :
    ∀ f ∈ (runLoop obs s).capturedFrames,
      f.event = "line" ∧ f.function = "main" ∧ f.depth = 1 ∧ f.return_value = none := by
  induction obs generalizing s with
  | nil => exact hs
  | cons o rest ih =>
      simp only [runLoop]
      by_cases hc : s.stepCount + 1 > MAX_STEPS
      · rw [if_pos hc]
        exact hs
      · rw [if_neg hc]
        apply ih
        intro f hf
        by_cases hpush : (match o.node with | some l => l | none => s.lastLine) > 0 ||
            (captureVariables o.allVars o.ids).length > 0
        · rw [if_pos hpush] at hf
          rcases List.mem_append.mp hf with hold | hnew
          · exact hs f hold
          · rcases List.mem_singleton.mp hnew with rfl
            exact ⟨rfl, rfl, rfl, rfl⟩
        · rw [if_neg hpush] at hf
          exact hs f hf

/-- The step numbers of recorded frames are strictly increasing and
bounded by the step counter. -/
lemma runLoop_steps_increasing (obs : List StepObs) (s : LoopState)
    (hb : ∀ f ∈ s.capturedFrames, f.step ≤ s.stepCount)
    (hp : (s.capturedFrames.map CFrame.step).Pairwise (· < ·)) :
    (∀ f ∈ (runLoop obs s).capturedFrames, f.step ≤ (runLoop obs s).stepCount) ∧
    ((runLoop obs s).capturedFrames.map CFrame.step).Pairwise (· < ·) := by
  induction obs generalizing s with
  | nil => exact ⟨hb, hp⟩
  | cons o rest ih =>
      simp only [runLoop]
      by_cases hc : s.stepCount + 1 > MAX_STEPS
      · rw [if_pos hc]
        refine ⟨?_, hp⟩
        intro f hf
        show f.step ≤ s.stepCount + 1
        have := hb f hf
        omega
      · rw [if_neg hc]
        apply ih
        · intro f hf
          show f.step ≤ s.stepCount + 1
          by_cases hpush : (match o.node with | some l => l | none => s.lastLine) > 0 ||
              (captureVariables o.allVars o.ids).length > 0
          · rw [if_pos hpush] at hf
            rcases List.mem_append.mp hf with hold | hnew
            · have := hb f hold; omega
            · rcases List.mem_singleton.mp hnew with rfl
              rfl
          · rw [if_neg hpush] at hf
            have := hb f hf; omega
        · show ((if _ then _ ++ _ else s.capturedFrames).map CFrame.step).Pairwise (· < ·)
          by_cases hpush : (match o.node with | some l => l | none => s.lastLine) > 0 ||
              (captureVariables o.allVars o.ids).length > 0
          · rw [if_pos hpush]
            rw [List.map_append]
            apply List.pairwise_append.mpr
            refine ⟨hp, by simp, ?_⟩
            intro a ha b hbmem
            simp at hbmem
            rcases List.mem_map.mp ha with ⟨g, hg, rfl⟩
            have := hb g hg
            omega
          · rw [if_neg hpush]
            exact hp

end CppEngine

namespace CppEngine

/-- Frame count of a C run whose program steps past the ceiling with a
positive line at every step: the loop contributes exactly MAX_STEPS
frames, and a non-empty output adds one synthetic stdout frame. -/
lemma runCode_ceiling_length (steps : List StepObs) (output : String)
    (hpush : ∀ o ∈ steps, ∃ l, o.node = some l ∧ 0 < l)
    (hlen : MAX_STEPS ≤ steps.length) :
    (runCode steps output).frames.length = MAX_STEPS + (if output = "" then 0 else 1) := by
  have hsplit : steps = steps.take MAX_STEPS ++ steps.drop MAX_STEPS :=
    (List.take_append_drop _ _).symm
  have htake_len : (steps.take MAX_STEPS).length = MAX_STEPS := by
    simp [List.length_take]
    omega
  have happ : runLoop steps ⟨[], 0, 0⟩ =
      runLoop (steps.drop MAX_STEPS) (runLoop (steps.take MAX_STEPS) ⟨[], 0, 0⟩) := by
    conv_lhs => rw [hsplit]
    exact runLoop_append _ _ _ (by simp [htake_len])
  have htake := runLoop_allPush (steps.take MAX_STEPS) ⟨[], 0, 0⟩
    (fun o ho => hpush o (List.mem_of_mem_take ho)) (by simp [htake_len])
  have hstop := runLoop_stop (steps.drop MAX_STEPS)
    (runLoop (steps.take MAX_STEPS) ⟨[], 0, 0⟩) (by rw [htake.2]; simp [htake_len])
  have hfinal : (runLoop steps ⟨[], 0, 0⟩).capturedFrames.length = MAX_STEPS := by
    rw [happ, hstop, htake.1, htake_len]
    simp
  simp only [runCode]
  by_cases hout : output = ""
  · rw [if_pos hout, if_pos hout]
    simpa using hfinal
  · rw [if_neg hout, if_neg hout]
    simp [hfinal]

end CppEngine

/-- C3: for every source text that fails to compile, trace_code returns
success = false, an empty frames list, and a non-empty error string that
contains the human-readable SyntaxError message and the line number. -/
theorem C3_compile_fault (msg : String) (lineno : Nat) (events : List PyTracer.PyEvent)
    (exec_error : Option PyTracer.RuntimeErr) :
    (PyTracer.trace_code (.error ⟨msg, lineno⟩) events exec_error).success = false ∧
    (PyTracer.trace_code (.error ⟨msg, lineno⟩) events exec_error).frames = [] ∧
    (PyTracer.trace_code (.error ⟨msg, lineno⟩) events exec_error).error =
      some ("SyntaxError: " ++ msg ++ " at line " ++ toString lineno) ∧
    ("SyntaxError: " ++ msg ++ " at line " ++ toString lineno) ≠ "" ∧
    msg.data <:+: ("SyntaxError: " ++ msg ++ " at line " ++ toString lineno).data ∧
    (toString lineno).data <:+: ("SyntaxError: " ++ msg ++ " at line " ++ toString lineno).data := by
  refine ⟨rfl, rfl, rfl, ?_, ?_, ?_⟩
  · intro hcontra
    have hlen := congrArg String.length hcontra
    rw [String.length_append, String.length_append, String.length_append] at hlen
    have h13 : ("SyntaxError: " : String).length = 13 := rfl
    have h0 : ("" : String).length = 0 := rfl
    omega
  · refine ⟨"SyntaxError: ".data, (" at line " ++ toString lineno).data, ?_⟩
    simp [String.data_append, List.append_assoc]
  · refine ⟨("SyntaxError: " ++ msg ++ " at line ").data, [], ?_⟩
    simp [String.data_append, List.append_assoc]

/-- C6: evaluation of the binding filter at the inputs that decide the
claim. A local named __x (double underscore, not on the denylist) is kept
by capture_locals although the claim and the source comment say dunder
names are always dropped: the skip of the source is nested inside a
condition that excludes dunder names, so it is dead code. Single
underscore names are kept and denylist names are dropped, as claimed. -/
theorem C6_dunder_filter_bug :
    (PyTracer.capture_locals [("__x", PyTracer.PyValue.int 5 1)]).map Prod.fst = ["__x"] ∧
    (PyTracer.capture_locals [("_i", PyTracer.PyValue.int 6 2)]).map Prod.fst = ["_i"] ∧
    (PyTracer.capture_locals [("__builtins__", PyTracer.PyValue.int 7 3)]).map Prod.fst = [] ∧
    startswith "__x" "__" = true ∧ "__x" ∉ PyTracer.IGNORED_VARS := by
  refine ⟨by decide, by decide, by decide, by decide, by decide⟩

/-- C7: on a return event below the ceiling, the tracer first appends a
frame carrying the serialized return value and then sets the depth to
max 0 (depth - 1). -/
theorem C7_return_frame_then_depth (s : PyTracer.TracerState) (line_no : Nat)
    (func_name : String) (locals : List (String × PyTracer.PyValue)) (arg : PyTracer.PyValue)
    (h : s.step_count < PyTracer.MAX_STEPS) :
    (PyTracer.trace_function s (.ret line_no func_name locals arg)).frames =
      s.frames ++ [⟨s.step_count + 1, line_no, "return", func_name, s.call_depth,
        PyTracer.capture_locals locals, some (PyTracer.serializeReturn arg), none⟩] ∧
    (PyTracer.trace_function s (.ret line_no func_name locals arg)).call_depth =
      max 0 (s.call_depth - 1) := by
  rw [PyTracer.trace_function_ret_eq s line_no func_name locals arg h]
  exact ⟨rfl, rfl⟩

/-- C7 witness: the return transition evaluated from the initial state. -/
theorem C7_return_frame_then_depth_witness :
    PyTracer.initState.step_count < PyTracer.MAX_STEPS ∧
    ((PyTracer.trace_function PyTracer.initState
        (.ret 4 "f" [] (PyTracer.PyValue.int 9 2))).frames =
      PyTracer.initState.frames ++ [⟨PyTracer.initState.step_count + 1, 4, "return", "f",
        PyTracer.initState.call_depth, PyTracer.capture_locals [],
        some (PyTracer.serializeReturn (PyTracer.PyValue.int 9 2)), none⟩] ∧
     (PyTracer.trace_function PyTracer.initState
        (.ret 4 "f" [] (PyTracer.PyValue.int 9 2))).call_depth =
      max 0 (PyTracer.initState.call_depth - 1)) :=
  ⟨by decide,
   C7_return_frame_then_depth PyTracer.initState 4 "f" [] (PyTracer.PyValue.int 9 2) (by decide)⟩

/-- C9: a runCode call made while pyodideRef.current is still null is
rejected immediately with success = false, a non-empty descriptive error,
and no frames. -/
theorem C9_not_ready_rejected (code : String) :
    PyTracer.usePyodide_runCode none code =
      ⟨false, some "Pyodide is not initialized", []⟩ ∧
    ("Pyodide is not initialized" : String) ≠ "" :=
  ⟨rfl, by decide⟩

/-- C10: every frame the C engine captures during stepping has event
"line", function "main" and depth 1; the only possible return frame is
the synthetic final one at depth 0 whose return value carries the trimmed
accumulated stdout text, and it exists only when output is non-empty. -/
theorem C10_c_engine_frame_shape (steps : List CppEngine.StepObs) (output : String) :
    (∀ f ∈ (CppEngine.runCode steps output).frames, f.event = "return" →
      f.depth = 0 ∧ f.function = "main" ∧ f.line = 0 ∧ f.vars = [] ∧
      f.return_value = some ⟨.str output.trim, "stdout", 0, none, none⟩ ∧ output ≠ "") ∧
    (∀ f ∈ (CppEngine.runCode steps output).frames, f.event ≠ "return" →
      f.event = "line" ∧ f.function = "main" ∧ f.depth = 1) := by
  have hshape := CppEngine.runLoop_shape steps ⟨[], 0, 0⟩
    (by intro f hf; exact absurd hf (List.not_mem_nil f))
  constructor
  · intro f hf hret
    simp only [CppEngine.runCode] at hf
    by_cases hout : output = ""
    · rw [if_pos hout] at hf
      have := hshape f hf
      rw [this.1] at hret
      exact absurd hret (by decide)
    · rw [if_neg hout] at hf
      rcases List.mem_append.mp hf with hold | hnew
      · have := hshape f hold
        rw [this.1] at hret
        exact absurd hret (by decide)
      · rcases List.mem_singleton.mp hnew with rfl
        exact ⟨rfl, rfl, rfl, rfl, rfl, hout⟩
  · intro f hf hret
    simp only [CppEngine.runCode] at hf
    by_cases hout : output = ""
    · rw [if_pos hout] at hf
      have := hshape f hf
      exact ⟨this.1, this.2.1, this.2.2.1⟩
    · rw [if_neg hout] at hf
      rcases List.mem_append.mp hf with hold | hnew
      · have := hshape f hold
        exact ⟨this.1, this.2.1, this.2.2.1⟩
      · rcases List.mem_singleton.mp hnew with rfl
        exact absurd rfl hret

/-- C10 witness: a one-step run with output "hi" contains the synthetic
stdout frame, and the theorem yields its shape. -/
theorem C10_c_engine_frame_shape_witness :
    ((⟨2, 0, "return", "main", 0, [],
        some ⟨.str ("hi".trim), "stdout", 0, none, none⟩⟩ : CppEngine.CFrame) ∈
      (CppEngine.runCode [⟨some 3, some [], fun _ => []⟩] "hi").frames) ∧
    ((2 : Nat) = 2 → ("hi" : String) ≠ "") := by
  have hmem : (⟨2, 0, "return", "main", 0, [],
      some ⟨.str ("hi".trim), "stdout", 0, none, none⟩⟩ : CppEngine.CFrame) ∈
      (CppEngine.runCode [⟨some 3, some [], fun _ => []⟩] "hi").frames :=
    List.mem_cons_of_mem _ (List.mem_cons_self _ _)
  refine ⟨hmem, fun _ => ?_⟩
  exact ((C10_c_engine_frame_shape [⟨some 3, some [], fun _ => []⟩] "hi").1 _ hmem rfl).2.2.2.2.2

/-- C4 counterexample: serializing a tuple of 51 elements truncates the
value to 50 elements but does not set the truncated key, refuting the
claim that truncated = true for every over-long ordered sequence. -/
theorem C4_counterexample :
    PyTracer.MAX_LIST_LENGTH < (List.replicate 51 (PyTracer.PyValue.none 0)).length ∧
    (PyTracer.serialize_value
      (.tuple 7 (List.replicate 51 (PyTracer.PyValue.none 0))) 0).truncated ≠ some true := by
  constructor
  · simp [PyTracer.MAX_LIST_LENGTH]
  · rw [PyTracer.serialize_value_tuple_eq 7 _ 0 (by omega)]
    simp [PyTracer.Snapshot.truncated]

/-- C4 amended: an over-long list serializes to the first 50 elements,
the true length and truncated = true; an over-long tuple serializes to
the first 50 elements and the true length, but carries no truncated key. -/
theorem C4_sequence_cap_amended (obj_id : Nat) (items : List PyTracer.PyValue)
    (h : PyTracer.MAX_LIST_LENGTH < items.length) :
    PyTracer.serialize_value (.list obj_id items) 0 =
      ⟨.arr ((items.take PyTracer.MAX_LIST_LENGTH).map
          (fun item => PyTracer.serialize_value item 1)),
        "list", obj_id, some items.length, some true⟩ ∧
    PyTracer.serialize_value (.tuple obj_id items) 0 =
      ⟨.arr ((items.take PyTracer.MAX_LIST_LENGTH).map
          (fun item => PyTracer.serialize_value item 1)),
        "tuple", obj_id, some items.length, none⟩ := by
  constructor
  · have h1 := PyTracer.serialize_value_list_eq obj_id items 0 (by omega)
    rw [if_pos h] at h1
    simpa using h1
  · have h1 := PyTracer.serialize_value_tuple_eq obj_id items 0 (by omega)
    simpa using h1

/-- C4 witness: the amended statement evaluated on a 51-element list. -/
theorem C4_sequence_cap_amended_witness :
    PyTracer.MAX_LIST_LENGTH < (List.replicate 51 (PyTracer.PyValue.bool 0 true)).length ∧
    (PyTracer.serialize_value (.list 4 (List.replicate 51 (PyTracer.PyValue.bool 0 true))) 0 =
      ⟨.arr (((List.replicate 51 (PyTracer.PyValue.bool 0 true)).take PyTracer.MAX_LIST_LENGTH).map
          (fun item => PyTracer.serialize_value item 1)),
        "list", 4, some (List.replicate 51 (PyTracer.PyValue.bool 0 true)).length, some true⟩ ∧
     PyTracer.serialize_value (.tuple 4 (List.replicate 51 (PyTracer.PyValue.bool 0 true))) 0 =
      ⟨.arr (((List.replicate 51 (PyTracer.PyValue.bool 0 true)).take PyTracer.MAX_LIST_LENGTH).map
          (fun item => PyTracer.serialize_value item 1)),
        "tuple", 4, some (List.replicate 51 (PyTracer.PyValue.bool 0 true)).length, none⟩) :=
  ⟨by simp [PyTracer.MAX_LIST_LENGTH],
   C4_sequence_cap_amended 4 _ (by simp [PyTracer.MAX_LIST_LENGTH])⟩

/-- C5 counterexample: serializing a 101-character string emits no length
key at all, refuting the claim that the length field reports the original
text length. -/
theorem C5_counterexample :
    PyTracer.MAX_STRING_LENGTH < (String.mk (List.replicate 101 'a')).length ∧
    (PyTracer.serialize_value (.str 3 (String.mk (List.replicate 101 'a'))) 0).length = none := by
  constructor
  · decide
  · rw [PyTracer.serialize_value_str_eq 3 _ 0 (by omega)]
    rfl

/-- C5 amended: the Python serializer truncates over-long text to the cap
and appends a literal "..." marker, emitting no length or truncated key;
the C serializer does not truncate text at all. -/
theorem C5_text_cap_amended :
    (∀ obj_id s, PyTracer.MAX_STRING_LENGTH < s.length →
      PyTracer.serialize_value (.str obj_id s) 0 =
        ⟨.str (s.take PyTracer.MAX_STRING_LENGTH ++ "..."), "str", obj_id, none, none⟩) ∧
    (∀ ids s ty, CppEngine.serializeValue ids (.str s) ty =
      ⟨.str s, "char*", ids.headD 0, none, none⟩) := by
  constructor
  · intro obj_id s h
    rw [PyTracer.serialize_value_str_eq obj_id s 0 (by omega)]
    rw [if_pos h]
  · intro ids s ty
    rfl

/-- C5 witness: the amended statement evaluated on a 101-character text
and on a C string. -/
theorem C5_text_cap_amended_witness :
    PyTracer.MAX_STRING_LENGTH < (String.mk (List.replicate 101 'b')).length ∧
    PyTracer.serialize_value (.str 3 (String.mk (List.replicate 101 'b'))) 0 =
      ⟨.str ((String.mk (List.replicate 101 'b')).take PyTracer.MAX_STRING_LENGTH ++ "..."),
        "str", 3, none, none⟩ ∧
    CppEngine.serializeValue [9] (.str "hello") "char*" =
      ⟨.str "hello", "char*", [9].headD 0, none, none⟩ :=
  ⟨by decide, (C5_text_cap_amended).1 3 _ (by decide), (C5_text_cap_amended).2 [9] "hello" "char*"⟩

/-- C8 counterexample: the C serializer contains internal errors with the
sentinel value "[error]" of type "error", not the claimed sentinel value
"<unserializable>". -/
theorem C8_counterexample :
    CppEngine.serializeValue [] CppEngine.CppValue.exotic "unknown" =
      ⟨.str "[error]", "error", 0, none, none⟩ ∧
    ("[error]" : String) ≠ "<unserializable>" :=
  ⟨rfl, by decide⟩

/-- C8 amended: a value whose serialization raises is contained per value:
the Python serializer returns the sentinel value "<unserializable>" under
the value's own type name, the C serializer returns the sentinel value
"[error]" of type "error", and in both cases the enclosing frame keeps
every other binding, since capture_locals treats bindings independently
and keeps every binding that no skip guard drops. -/
theorem C8_serialization_failure_amended :
    (∀ obj_id type_name c, PyTracer.serialize_value (.obj obj_id type_name none c) 0 =
      ⟨.str "<unserializable>", type_name, obj_id, none, none⟩) ∧
    (∀ ids ty, CppEngine.serializeValue ids .exotic ty =
      ⟨.str "[error]", "error", ids.headD 0, none, none⟩) ∧
    (∀ pre post, PyTracer.capture_locals (pre ++ post) =
      PyTracer.capture_locals pre ++ PyTracer.capture_locals post) ∧
    (∀ locs name value, (name, value) ∈ locs → PyTracer.skippedBinding name value = false →
      (name, PyTracer.serialize_value value 0) ∈ PyTracer.capture_locals locs) := by
  refine ⟨?_, ?_, PyTracer.capture_locals_append, PyTracer.mem_capture_locals⟩
  · intro obj_id type_name c
    exact PyTracer.serialize_value_unserializable_eq obj_id type_name c 0 (by omega)
  · intro ids ty
    rfl

/-- C8 witness: a frame with one unserializable value still keeps its
other binding. -/
theorem C8_serialization_failure_amended_witness :
    (("a", PyTracer.PyValue.int 1 2) ∈
      [("a", PyTracer.PyValue.int 1 2), ("bad", PyTracer.PyValue.obj 3 "Weird" none false)]) ∧
    PyTracer.skippedBinding "a" (PyTracer.PyValue.int 1 2) = false ∧
    ("a", PyTracer.serialize_value (PyTracer.PyValue.int 1 2) 0) ∈
      PyTracer.capture_locals
        [("a", PyTracer.PyValue.int 1 2), ("bad", PyTracer.PyValue.obj 3 "Weird" none false)] := by
  have hmem : ("a", PyTracer.PyValue.int 1 2) ∈
      [("a", PyTracer.PyValue.int 1 2), ("bad", PyTracer.PyValue.obj 3 "Weird" none false)] :=
    List.mem_cons_self _ _
  exact ⟨hmem, by decide,
    C8_serialization_failure_amended.2.2.2 _ "a" (PyTracer.PyValue.int 1 2) hmem (by decide)⟩

namespace PyTracer

/-- Count of the recordable events in a replicated event list. -/
lemma countP_replicate (n : Nat) (e : PyEvent) (h : recordable e = true) :
    (List.replicate n e).countP recordable = n := by
  induction n with
  | zero => rfl
  | succ k ih => simp [List.replicate_succ, List.countP_cons, h, ih]

end PyTracer

/-- C1 counterexample: a C run whose first debugger step has no node and
no variables records no frame for it, so the first recorded frame carries
step 2 at index 0, refuting frames(i).step = i + 1 for the C engine. -/
theorem C1_counterexample :
    ¬ (∀ i f, ((CppEngine.runCode
        [⟨none, some [], fun _ => []⟩, ⟨some 5, some [], fun _ => []⟩] "").frames)[i]? =
          some f → f.step = i + 1) := by
  intro hclaim
  have h0 := hclaim 0 ⟨2, 5, "line", "main", 1, [], none⟩ rfl
  exact absurd h0 (by decide)

/-- C1 amended: in the Python tracer every frame satisfies
frames(i).step = i + 1; in the C engine the recorded step numbers are
strictly increasing, but frames can be skipped, so step numbers may skip
values and need not start at 1. -/
theorem C1_step_numbering_amended :
    (∀ events i f,
      ((PyTracer.runTrace events PyTracer.initState).frames)[i]? = some f → f.step = i + 1) ∧
    (∀ steps output,
      (((CppEngine.runCode steps output).frames).map CppEngine.CFrame.step).Pairwise (· < ·)) := by
  constructor
  · intro events i f hif
    have hinv := PyTracer.runTrace_inv events PyTracer.initState
      ⟨rfl, by intro j g hg; simp [PyTracer.initState] at hg⟩
    exact hinv.2 i f hif
  · intro steps output
    have hloop := CppEngine.runLoop_steps_increasing steps ⟨[], 0, 0⟩
      (by intro f hf; exact absurd hf (List.not_mem_nil f)) (by simp)
    simp only [CppEngine.runCode]
    by_cases hout : output = ""
    · rw [if_pos hout]
      exact hloop.2
    · rw [if_neg hout]
      rw [List.map_append]
      apply List.pairwise_append.mpr
      refine ⟨hloop.2, by simp, ?_⟩
      intro a ha b hbmem
      simp at hbmem
      rcases List.mem_map.mp ha with ⟨g, hg, rfl⟩
      have := hloop.1 g hg
      omega

/-- C1 witness: a one-event Python run, evaluated at index 0. -/
theorem C1_step_numbering_amended_witness :
    ((PyTracer.runTrace [PyTracer.PyEvent.line 1 "<module>" []] PyTracer.initState).frames)[0]? =
      some ⟨1, 1, "line", "<module>", 0, [], none, none⟩ ∧
    (⟨1, 1, "line", "<module>", 0, [], none, none⟩ : PyTracer.Frame).step = 0 + 1 :=
  ⟨rfl, C1_step_numbering_amended.1 [PyTracer.PyEvent.line 1 "<module>" []] 0 _ rfl⟩

/-- C2 counterexample: a C run of 1001 frame-worthy steps with non-empty
output returns ceiling + 1 = 1001 frames (1000 stepping frames plus the
synthetic stdout frame), refuting the claim of exactly ceiling frames. -/
theorem C2_counterexample :
    (∀ o ∈ List.replicate 1001 (⟨some 1, some [], fun _ => []⟩ : CppEngine.StepObs),
      ∃ l, o.node = some l ∧ 0 < l) ∧
    (CppEngine.runCode
      (List.replicate 1001 (⟨some 1, some [], fun _ => []⟩ : CppEngine.StepObs)) "x").frames.length ≠
      CppEngine.MAX_STEPS := by
  have hpush : ∀ o ∈ List.replicate 1001 (⟨some 1, some [], fun _ => []⟩ : CppEngine.StepObs),
      ∃ l, o.node = some l ∧ 0 < l := by
    intro o ho
    rw [List.eq_of_mem_replicate ho]
    exact ⟨1, rfl, by omega⟩
  refine ⟨hpush, ?_⟩
  rw [CppEngine.runCode_ceiling_length _ _ hpush (by rw [List.length_replicate]; decide)]
  simp [CppEngine.MAX_STEPS]

/-- C2 amended: a Python run whose event stream holds at least 1000
recordable events records exactly 1000 frames, and when execution raises
no exception it returns success = true with no error; a C run of at least
1000 frame-worthy steps returns success = true with no error and
1000 stepping frames, plus one synthetic stdout frame when the program
produced output (so ceiling + 1 frames in total). -/
theorem C2_step_ceiling_amended :
    (∀ events exec_error, PyTracer.MAX_STEPS ≤ events.countP PyTracer.recordable →
      (PyTracer.trace_code (.ok ()) events exec_error).frames.length = PyTracer.MAX_STEPS ∧
      (exec_error = none →
        (PyTracer.trace_code (.ok ()) events exec_error).success = true ∧
        (PyTracer.trace_code (.ok ()) events exec_error).error = none)) ∧
    (∀ steps output, (∀ o ∈ steps, ∃ l, o.node = some l ∧ 0 < l) →
      CppEngine.MAX_STEPS ≤ steps.length →
      (CppEngine.runCode steps output).success = true ∧
      (CppEngine.runCode steps output).error = none ∧
      (CppEngine.runCode steps output).frames.length =
        CppEngine.MAX_STEPS + (if output = "" then 0 else 1)) := by
  constructor
  · intro events exec_error hcount
    have hlen := PyTracer.runTrace_length events PyTracer.initState rfl (by decide)
    have hmin : (PyTracer.runTrace events PyTracer.initState).frames.length =
        PyTracer.MAX_STEPS := by
      rw [hlen]
      have h0 : PyTracer.initState.frames.length = 0 := rfl
      omega
    constructor
    · cases exec_error with
      | none => simpa [PyTracer.trace_code] using hmin
      | some e => simpa [PyTracer.trace_code] using hmin
    · intro he
      subst he
      exact ⟨rfl, rfl⟩
  · intro steps output hpush hlen2
    exact ⟨rfl, rfl, CppEngine.runCode_ceiling_length steps output hpush hlen2⟩

/-- C2 witness: the amended statement evaluated on a 1000-event Python
stream and a 1000-step C run. -/
theorem C2_step_ceiling_amended_witness :
    PyTracer.MAX_STEPS ≤
      (List.replicate 1000 (PyTracer.PyEvent.line 1 "m" [])).countP PyTracer.recordable ∧
    (PyTracer.trace_code (.ok ()) (List.replicate 1000 (PyTracer.PyEvent.line 1 "m" []))
      none).frames.length = PyTracer.MAX_STEPS ∧
    (CppEngine.runCode
      (List.replicate 1000 (⟨some 1, some [], fun _ => []⟩ : CppEngine.StepObs)) "").frames.length =
      CppEngine.MAX_STEPS + (if ("" : String) = "" then 0 else 1) := by
  have hc : (List.replicate 1000 (PyTracer.PyEvent.line 1 "m" [])).countP PyTracer.recordable =
      1000 := PyTracer.countP_replicate 1000 _ rfl
  have hcount : PyTracer.MAX_STEPS ≤
      (List.replicate 1000 (PyTracer.PyEvent.line 1 "m" [])).countP PyTracer.recordable := by
    rw [hc]
    decide
  have hpush : ∀ o ∈ List.replicate 1000 (⟨some 1, some [], fun _ => []⟩ : CppEngine.StepObs),
      ∃ l, o.node = some l ∧ 0 < l := by
    intro o ho
    rw [List.eq_of_mem_replicate ho]
    exact ⟨1, rfl, by omega⟩
  refine ⟨hcount, (C2_step_ceiling_amended.1 _ none hcount).1, ?_⟩
  exact (C2_step_ceiling_amended.2 _ "" hpush (by rw [List.length_replicate]; decide)).2.2
